import Mathlib

/-!
Shallow embedding of the ShootUp backend (src/main.py, src/schemas.py).

The document store (MongoDB) is modelled as an explicit state `DB` holding the
five collections (`event`, `media`, `comment`, `like`, `userprofile`) as lists
of typed documents in natural (insertion) order, plus a counter used to mint
fresh ObjectIds.  Each FastAPI route of src/main.py is translated into a Lean
function on `DB`; a route that can raise `HTTPException` returns
`Except HTTPError (result × DB)`.  All raises in the source occur before any
store write, which the translation mirrors: an error is returned before any
modified state is constructed.

Modelling conventions, each tied to the source:
* ObjectId: bson `ObjectId(s)` accepts a 24-character hexadecimal string and
  normalises it to lowercase; `str(oid)` is the lowercase hex form.  Ids are
  modelled as their canonical lowercase-hex strings, parsing as
  `isValidObjectId`, and id generation (`insert_one`) as `oidOfNat db.nextId`.
* `find_one` returns the first matching document in natural order:
  `List.find?`.  `update_one`/`delete_one` affect the first match:
  `updateFirst`/`deleteFirst`.  `insert_one` appends.
* Mongo sorts: a sort key that is absent from a document compares as null,
  below every concrete value; documents are kept in a stable order otherwise.
  This is modelled by the stable insertion sort `isort` with a strict
  comparison.  Neither `create_event` nor `upload_media` ever writes a
  `created_at` field, so those keys are `none` on every document this API
  creates; the `created_at : Option Nat` fields record exactly that.
* Python `set(...)`/`list(...)` in `join_event` is modelled by `dedupSet`
  (members preserved, duplicates removed); the iteration order of a Python
  set is unspecified, so the model fixes a canonical order — every claim
  about participants is order-independent (set membership).
* Python string `upper()`/`lower()` on the ASCII strings involved is
  modelled by `upperStr`/`lowerStr`.
-/

/-- Hexadecimal digit test, as accepted by `bson.ObjectId` for id strings. -/
def isHexChar (c : Char) : Bool :=
  (('0' ≤ c) && (c ≤ '9')) || (('a' ≤ c) && (c ≤ 'f')) || (('A' ≤ c) && (c ≤ 'F'))

/-- Validity of a client-supplied id string: `ObjectId(s)` succeeds exactly on
24-character hex strings.  Source: every `try: ObjectId(x) except: raise 400`
block in src/main.py. -/
def isValidObjectId (s : String) : Bool :=
  s.data.length == 24 && s.data.all isHexChar

/-- ASCII lowercasing of one character (Python `str.lower` on ASCII). -/
def lowerChar (c : Char) : Char :=
  if ('A' ≤ c) && (c ≤ 'Z') then Char.ofNat (c.toNat + 32) else c

/-- ASCII uppercasing of one character (Python `str.upper` on ASCII). -/
def upperChar (c : Char) : Char :=
  if ('a' ≤ c) && (c ≤ 'z') then Char.ofNat (c.toNat - 32) else c

/-- Python `s.lower()` (ASCII fragment); used for ObjectId normalisation. -/
def lowerStr (s : String) : String :=
  ⟨s.data.map lowerChar⟩

/-- Python `s.upper()` (ASCII fragment); used by the join-code lookup. -/
def upperStr (s : String) : String :=
  ⟨s.data.map upperChar⟩

/-- Hex digit character for a value below 16 (lowercase, as `str(ObjectId)`). -/
def hexChar (n : Nat) : Char :=
  if n < 10 then Char.ofNat (48 + n) else Char.ofNat (87 + n)

/-- Canonical lowercase-hex ObjectId string minted for the `n`-th inserted
document; models the ids generated by `insert_one`. -/
def oidOfNat (n : Nat) : String :=
  ⟨(List.range 24).map (fun i => hexChar (n / 16 ^ (23 - i) % 16))⟩

/-- Event document (collection "event"); fields exactly as written by
`create_event` in src/main.py plus the never-written `created_at` sort key
used by `explore_events`. -/
structure EventDoc where
  _id : String
  code : String
  title : String
  date_iso : Option String
  location : Option String
  access : String
  cover_url : Option String
  participants : List String
  challenges : List String
  ended : Bool
  created_at : Option Nat
deriving DecidableEq, Repr

/-- Media document (collection "media"); fields exactly as written by
`upload_media` plus the never-written `created_at` sort key used by
`list_media_for_event`. -/
structure MediaDoc where
  _id : String
  event_id : String
  user_id : String
  url : String
  media_type : String
  challenge : Option String
  likes_count : Int
  comments_count : Int
  created_at : Option Nat
deriving DecidableEq, Repr

/-- Comment document (collection "comment"), as written by `add_comment`. -/
structure CommentDoc where
  _id : String
  media_id : String
  user_id : String
  text : String
  created_at : Option Nat
deriving DecidableEq, Repr

/-- Like document (collection "like"), as written by `toggle_like`. -/
structure LikeDoc where
  _id : String
  media_id : String
  user_id : String
deriving DecidableEq, Repr

/-- User profile document (collection "userprofile"), keyed by `user_id`.
Fields other than the key are `Option` because Mongo upserts
(`$setOnInsert` in `join_event`, `$set` in `update_user`) create documents
that may lack any of them. -/
structure UserProfileDoc where
  user_id : String
  username : Option String
  avatar_url : Option String
  bio : Option String
  following_events : Option (List String)
deriving DecidableEq, Repr

/-- The document store: the five collections in natural (insertion) order and
the counter minting fresh ObjectIds for `insert_one`. -/
structure DB where
  event : List EventDoc
  media : List MediaDoc
  comment : List CommentDoc
  like : List LikeDoc
  userprofile : List UserProfileDoc
  nextId : Nat
deriving DecidableEq, Repr

/-- The store with no documents. -/
def emptyDB : DB :=
  { event := [], media := [], comment := [], like := [], userprofile := [], nextId := 0 }

/-- An `HTTPException(status_code, detail)` raised by a route. -/
structure HTTPError where
  status : Nat
  detail : String
deriving DecidableEq, Repr

/-- Mongo `update_one` on an unfiltered collection: rewrite the first document
matching the filter, leave the rest in place. -/
def updateFirst (p : α → Bool) (f : α → α) : List α → List α
  | [] => []
  | x :: xs => if p x then f x :: xs else x :: updateFirst p f xs

/-- Mongo `delete_one`: remove the first document matching the filter. -/
def deleteFirst (p : α → Bool) : List α → List α
  | [] => []
  | x :: xs => if p x then xs else x :: deleteFirst p xs

/-- Stable insertion used by `isort`: `lt a b` means `a` must come strictly
before `b`; an element is placed after every earlier element not strictly
after it, so equal keys keep their original relative order. -/
def insStable (lt : α → α → Bool) (x : α) : List α → List α
  | [] => [x]
  | y :: ys => if lt y x then y :: insStable lt x ys else x :: y :: ys

/-- Stable sort by a strict comparison; models a Mongo `sort` on a cursor. -/
def isort (lt : α → α → Bool) : List α → List α
  | [] => []
  | x :: xs => insStable lt x (isort lt xs)

/-- Sort rank of a possibly-missing Mongo key: a missing (or null) key is
below every concrete value. -/
def optRank : Option Nat → Nat
  | none => 0
  | some n => n + 1

/-- Descending comparison on a possibly-missing `created_at` key:
strictly-greater keys come first, missing keys last. -/
def ltCreatedDescEvent (a b : EventDoc) : Bool :=
  optRank b.created_at < optRank a.created_at

/-- Descending `created_at` comparison for media (`sort("created_at", -1)`). -/
def ltCreatedDescMedia (a b : MediaDoc) : Bool :=
  optRank b.created_at < optRank a.created_at

/-- Ascending `created_at` comparison for comments (`sort("created_at", 1)`). -/
def ltCreatedAscComment (a b : CommentDoc) : Bool :=
  optRank a.created_at < optRank b.created_at

/-- Ascending `user_id` comparison for media (`sort("user_id", 1)`). -/
def ltUserAscMedia (a b : MediaDoc) : Bool :=
  decide (a.user_id < b.user_id)

/-- Sort rank of a possibly-missing string key: null below every string. -/
def ltOptStr (a b : Option String) : Bool :=
  match a, b with
  | none, none => false
  | none, some _ => true
  | some _, none => false
  | some x, some y => decide (x < y)

/-- Ascending `challenge` comparison for media (`sort("challenge", 1)`). -/
def ltChallengeAscMedia (a b : MediaDoc) : Bool :=
  ltOptStr a.challenge b.challenge

/-- Request body of `POST /api/events` (`CreateEvent` in src/main.py). -/
structure CreateEventPayload where
  title : String
  date_iso : Option String := none
  location : Option String := none
  access : String := "public"
  cover_url : Option String := none
  challenges : List String := []
deriving DecidableEq, Repr

/-- Request body of `POST /api/events/join` (`JoinEvent` in src/main.py). -/
structure JoinEventPayload where
  code : String
  user_id : String
  username : Option String := none
deriving DecidableEq, Repr

/-- Request body of `POST /api/media` (`UploadMedia` in src/main.py). -/
structure UploadMediaPayload where
  event_id : String
  user_id : String
  url : String
  media_type : String := "photo"
  challenge : Option String := none
deriving DecidableEq, Repr

/-- Request body of `POST /api/media/{media_id}/comments` (`AddComment`). -/
structure AddCommentPayload where
  user_id : String
  text : String
deriving DecidableEq, Repr

/-- Request body of `PUT /api/user/{user_id}` (`UpdateUser`). -/
structure UpdateUserPayload where
  username : Option String := none
  avatar_url : Option String := none
  bio : Option String := none
deriving DecidableEq, Repr

/-- Translation of `generate_code` (src/main.py lines 127-129):
`random.choices(string.ascii_uppercase + string.digits, k=6)`.  The
randomness source is explicit: `rand i` is the i-th draw, reduced modulo the
alphabet size to pick an alphabet element, as `choices` draws uniformly from
the 36-character alphabet. -/
def generate_code (rand : Nat → Nat) : String :=
  let alphabet := "ABCDEFGHIJKLMNOPQRSTUVWXYZ0123456789".data
  ⟨(List.range 6).map (fun i => alphabet.getD (rand i % 36) 'A')⟩

/-- Translation of `create_event` (src/main.py lines 131-149) for a reachable
store (`db is not None`); builds the event document exactly as the source
dict literal does — note no `created_at` field is written — and appends it.
Returns the inserted document as the response. -/
def create_event (rand : Nat → Nat) (p : CreateEventPayload) (db : DB) : EventDoc × DB :=
  let code := generate_code rand
  let doc : EventDoc :=
    { _id := oidOfNat db.nextId
      code := code
      title := p.title
      date_iso := p.date_iso
      location := p.location
      access := p.access
      cover_url := p.cover_url
      participants := []
      challenges := p.challenges
      ended := false
      created_at := none }
  (doc, { db with event := db.event ++ [doc], nextId := db.nextId + 1 })

/-- The route `POST /api/events` including the `db is None` guard
(src/main.py lines 133-134). -/
def create_event_api (rand : Nat → Nat) (p : CreateEventPayload) :
    Option DB → Except HTTPError (EventDoc × DB)
  | none => .error ⟨500, "Database not configured"⟩
  | some db => .ok (create_event rand p db)

/-- One annotated item of the explore response: the serialized event dict
with its `cover_url` possibly resolved to the first media's url, plus the
two added counter keys. -/
structure ExploreItem where
  event : EventDoc
  participants_count : Nat
  media_count : Nat
deriving DecidableEq, Repr

/-- Cover resolution in `explore_events` (src/main.py lines 163-167): a falsy
`cover_url` (absent or empty string, Python `if not ...`) is replaced by the
url of the first media found for the event, when one exists. -/
def resolveCover (db : DB) (e : EventDoc) : Option String :=
  if (e.cover_url.getD "") == "" then
    match db.media.find? (fun m => m.event_id == e._id) with
    | some m => some m.url
    | none => e.cover_url
  else e.cover_url

/-- Translation of `explore_events` (src/main.py lines 151-169) for a
reachable store: filter `access == "public"`, Mongo-sort on the (never
written) `created_at` key descending, truncate to `limit`, and annotate each
event with `participants_count`, `media_count` (documents whose `event_id`
string equals the event's id string) and the resolved cover. -/
def explore_events (db : DB) (limit : Nat) : List ExploreItem :=
  let pubs := db.event.filter (fun e => e.access == "public")
  let sorted := isort ltCreatedDescEvent pubs
  (sorted.take limit).map (fun e =>
    { event := { e with cover_url := resolveCover db e }
      participants_count := e.participants.length
      media_count := (db.media.filter (fun m => m.event_id == e._id)).length })

/-- Canonical form of Python `list(set(l))`: same members, no duplicates.
The iteration order of a Python set is unspecified; this model keeps the
last occurrence of each member in place. -/
def dedupSet : List String → List String
  | [] => []
  | x :: xs => let d := dedupSet xs; if x ∈ d then d else x :: d

/-- The participant update of `join_event` (src/main.py lines 178-179):
`participants = set(event.get("participants", [])); participants.add(user_id);
list(participants)`. -/
def joinParticipants (u : String) (l : List String) : List String :=
  let d := dedupSet l
  if u ∈ d then d else d ++ [u]

/-- Event lookup by join code (src/main.py line 175): first try the
uppercased code, then fall back to the exact string. -/
def findEventByCode (l : List EventDoc) (code : String) : Option EventDoc :=
  match l.find? (fun e => e.code == upperStr code) with
  | some e => some e
  | none => l.find? (fun e => e.code == code)

/-- The `$setOnInsert` upsert of `join_event` (src/main.py line 182): when no
profile with this `user_id` exists, insert one with the `username` (payload
username, or "Guest" when it is missing or empty — Python `or`) and an empty
`following_events`; an existing profile is left untouched. -/
def upsertGuestProfile (u : String) (uname : Option String) (db : DB) : DB :=
  match db.userprofile.find? (fun pr => pr.user_id == u) with
  | some _ => db
  | none =>
    let name := match uname with
      | some s => if s == "" then "Guest" else s
      | none => "Guest"
    { db with userprofile := db.userprofile ++
        [{ user_id := u, username := some name, avatar_url := none, bio := none
           following_events := some [] }] }

/-- Translation of `join_event` (src/main.py lines 171-184) for a reachable
store: find the event by code (uppercased, then exact), 404 when absent;
rewrite its participants as a deduplicated set containing `user_id`; upsert
a minimal profile; re-read and return the event.  The re-read cannot fail
after the update; the impossible branch mirrors the crash `serialize_doc`
would produce on `None`. -/
def join_event (db : DB) (p : JoinEventPayload) : Except HTTPError (EventDoc × DB) :=
  match findEventByCode db.event p.code with
  | none => .error ⟨404, "Event not found"⟩
  | some ev =>
    let ps := joinParticipants p.user_id ev.participants
    let newEvents :=
      updateFirst (fun e => e._id == ev._id) (fun e => { e with participants := ps }) db.event
    let db₁ := { db with event := newEvents }
    let db₂ := upsertGuestProfile p.user_id p.username db₁
    match db₂.event.find? (fun e => e._id == ev._id) with
    | some ev2 => .ok (ev2, db₂)
    | none => .error ⟨500, "Internal Server Error"⟩

/-- Translation of `get_event_by_code` (src/main.py lines 186-191): lookup
only, no store change. -/
def get_event_by_code (db : DB) (code : String) : Except HTTPError EventDoc :=
  match findEventByCode db.event code with
  | none => .error ⟨404, "Event not found"⟩
  | some ev => .ok ev

/-- Translation of `get_event` (src/main.py lines 193-202): 400 on a
malformed id, 404 when no event has the (normalised) id. -/
def get_event (db : DB) (event_id : String) : Except HTTPError EventDoc :=
  if isValidObjectId event_id then
    match db.event.find? (fun e => e._id == lowerStr event_id) with
    | none => .error ⟨404, "Event not found"⟩
    | some ev => .ok ev
  else .error ⟨400, "Invalid event id"⟩

/-- Translation of `upload_media` (src/main.py lines 206-228) for a reachable
store: 400 before any store access when `event_id` is malformed, 404 when no
event has that id, otherwise insert the media document exactly as the source
dict literal (raw `event_id` string, zero counters, no `created_at`). -/
def upload_media (db : DB) (p : UploadMediaPayload) : Except HTTPError (MediaDoc × DB) :=
  if isValidObjectId p.event_id then
    match db.event.find? (fun e => e._id == lowerStr p.event_id) with
    | none => .error ⟨404, "Event not found"⟩
    | some _ =>
      let doc : MediaDoc :=
        { _id := oidOfNat db.nextId
          event_id := p.event_id
          user_id := p.user_id
          url := p.url
          media_type := p.media_type
          challenge := p.challenge
          likes_count := 0
          comments_count := 0
          created_at := none }
      .ok (doc, { db with media := db.media ++ [doc], nextId := db.nextId + 1 })
  else .error ⟨400, "Invalid event id"⟩

/-- The route `POST /api/media` including the `db is None` guard
(src/main.py lines 208-209). -/
def upload_media_api (p : UploadMediaPayload) :
    Option DB → Except HTTPError (MediaDoc × DB)
  | none => .error ⟨500, "Database not configured"⟩
  | some db => upload_media db p

/-- Translation of `list_media_for_event` (src/main.py lines 230-246): 400 on
a malformed id; otherwise all media whose `event_id` equals the raw path
string, ordered by the recognised sort key, and in stored order when the
`sort` value is none of "time", "participant", "challenge" (the if/elif
chain falls through silently). -/
def list_media_for_event (db : DB) (event_id : String) (sort : String) :
    Except HTTPError (List MediaDoc) :=
  if isValidObjectId event_id then
    let items := db.media.filter (fun m => m.event_id == event_id)
    let items :=
      if sort == "time" then isort ltCreatedDescMedia items
      else if sort == "participant" then isort ltUserAscMedia items
      else if sort == "challenge" then isort ltChallengeAscMedia items
      else items
    .ok items
  else .error ⟨400, "Invalid event id"⟩

/-- The like-row count for a (media_id, user_id) pair, matching the raw query
dict `like_q = {"media_id": media_id, "user_id": user_id}` of `toggle_like`. -/
def countLikes (db : DB) (media_id user_id : String) : Nat :=
  db.like.countP (fun l => l.media_id == media_id && l.user_id == user_id)

/-- Translation of `toggle_like` (src/main.py lines 248-268): 400 on a
malformed id, 404 when the media is absent; delete the first like row for
the pair when one exists (delta -1), else insert one (delta +1); write
`max 0 (likes_count + delta)` and return the re-read media.  The re-read
cannot fail after the update; the impossible branch mirrors the crash
`serialize_doc` would produce on `None`. -/
def toggle_like (db : DB) (media_id : String) (user_id : String) :
    Except HTTPError (MediaDoc × DB) :=
  if isValidObjectId media_id then
    match db.media.find? (fun m => m._id == lowerStr media_id) with
    | none => .error ⟨404, "Media not found"⟩
    | some media =>
      let pair := fun (l : LikeDoc) => l.media_id == media_id && l.user_id == user_id
      let newLike : LikeDoc := { _id := oidOfNat db.nextId, media_id := media_id, user_id := user_id }
      let step : Int × DB :=
        match db.like.find? pair with
        | some l0 => (-1, { db with like := deleteFirst (fun l => l._id == l0._id) db.like })
        | none => (1, { db with like := db.like ++ [newLike], nextId := db.nextId + 1 })
      let newCount : Int := max 0 (media.likes_count + step.1)
      let newMedia :=
        updateFirst (fun m => m._id == media._id)
          (fun m => { m with likes_count := newCount }) step.2.media
      let db₂ := { step.2 with media := newMedia }
      match db₂.media.find? (fun m => m._id == media._id) with
      | some updated => .ok (updated, db₂)
      | none => .error ⟨500, "Internal Server Error"⟩
  else .error ⟨400, "Invalid media id"⟩

/-- Translation of `list_comments` (src/main.py lines 270-277): 400 on a
malformed id; all comments whose `media_id` equals the raw path string,
Mongo-sorted ascending on the never-written `created_at` key. -/
def list_comments (db : DB) (media_id : String) : Except HTTPError (List CommentDoc) :=
  if isValidObjectId media_id then
    .ok (isort ltCreatedAscComment (db.comment.filter (fun c => c.media_id == media_id)))
  else .error ⟨400, "Invalid media id"⟩

/-- Translation of `add_comment` (src/main.py lines 279-292): 400 on a
malformed id, 404 when the media is absent; insert the comment document,
write `comments_count` as the previously read value plus one, and return the
acknowledgment `{ok: true}`. -/
def add_comment (db : DB) (media_id : String) (p : AddCommentPayload) :
    Except HTTPError (Bool × DB) :=
  if isValidObjectId media_id then
    match db.media.find? (fun m => m._id == lowerStr media_id) with
    | none => .error ⟨404, "Media not found"⟩
    | some media =>
      let newComment : CommentDoc :=
        { _id := oidOfNat db.nextId, media_id := media_id, user_id := p.user_id
          text := p.text, created_at := none }
      let db₁ := { db with comment := db.comment ++ [newComment], nextId := db.nextId + 1 }
      let newCount : Int := media.comments_count + 1
      let newMedia :=
        updateFirst (fun m => m._id == media._id)
          (fun m => { m with comments_count := newCount }) db₁.media
      let db₂ := { db₁ with media := newMedia }
      .ok (true, db₂)
  else .error ⟨400, "Invalid media id"⟩

/-- The response of `GET /api/user/{user_id}`: the profile dict (stored or
synthesized) with the two annotation keys added by `get_user`. -/
structure GetUserOut where
  user_id : String
  username : Option String
  avatar_url : Option String
  bio : Option String
  following_events : Option (List String)
  joined_events : List EventDoc
  uploads_count : Nat
deriving DecidableEq, Repr

/-- Translation of `get_user` (src/main.py lines 296-307): the stored profile
when one exists, else the synthesized default dict
`{"user_id": u, "username": "Guest", "avatar_url": None, "following_events": []}`;
annotated with the events whose participants contain `user_id` and the count
of media authored by `user_id`.  The route performs only reads: the store is
returned unchanged. -/
def get_user (db : DB) (u : String) : GetUserOut × DB :=
  let prof : UserProfileDoc :=
    match db.userprofile.find? (fun pr => pr.user_id == u) with
    | some pr => pr
    | none =>
      { user_id := u, username := some "Guest", avatar_url := none, bio := none
        following_events := some [] }
  ({ user_id := prof.user_id
     username := prof.username
     avatar_url := prof.avatar_url
     bio := prof.bio
     following_events := prof.following_events
     joined_events := db.event.filter (fun e => e.participants.contains u)
     uploads_count := (db.media.filter (fun m => m.user_id == u)).length }, db)

/-- The response of `PUT /api/user/{user_id}`: the bare `{ok: true}`
acknowledgment when no field was provided, else the updated profile. -/
inductive UpdateUserOut where
  | ack : UpdateUserOut
  | profile : UserProfileDoc → UpdateUserOut
deriving DecidableEq, Repr

/-- Translation of `update_user` (src/main.py lines 309-316): no-op success
when every field is absent; otherwise `$set` the provided fields on the
first profile with this `user_id`, inserting (upsert) a document made of the
key and the provided fields when none exists, then re-read and return it. -/
def update_user (db : DB) (u : String) (p : UpdateUserPayload) :
    Except HTTPError (UpdateUserOut × DB) :=
  if p.username.isNone && p.avatar_url.isNone && p.bio.isNone then
    .ok (.ack, db)
  else
    let setFields := fun (pr : UserProfileDoc) =>
      { pr with
        username := p.username.or pr.username
        avatar_url := p.avatar_url.or pr.avatar_url
        bio := p.bio.or pr.bio }
    let newProfile : UserProfileDoc :=
      { user_id := u, username := p.username, avatar_url := p.avatar_url
        bio := p.bio, following_events := none }
    let db₁ :=
      match db.userprofile.find? (fun pr => pr.user_id == u) with
      | some _ =>
        { db with userprofile := updateFirst (fun pr => pr.user_id == u) setFields db.userprofile }
      | none => { db with userprofile := db.userprofile ++ [newProfile] }
    match db₁.userprofile.find? (fun pr => pr.user_id == u) with
    | some pr => .ok (.profile pr, db₁)
    | none => .error ⟨500, "Internal Server Error"⟩

/-- One API operation with its request data; the data-modifying view used to
state store-wide invariants.  The liveness and diagnostic routes
(`GET /`, `GET /api/hello`, `GET /test`) build no document operation that
writes, and are not part of the data API. -/
inductive Op where
  | createEvent (rand : Nat → Nat) (p : CreateEventPayload)
  | exploreEvents (limit : Nat)
  | joinEvent (p : JoinEventPayload)
  | getEventByCode (code : String)
  | getEvent (event_id : String)
  | uploadMedia (p : UploadMediaPayload)
  | listMediaForEvent (event_id : String) (sort : String)
  | toggleLike (media_id : String) (user_id : String)
  | listComments (media_id : String)
  | addComment (media_id : String) (p : AddCommentPayload)
  | getUser (user_id : String)
  | updateUser (user_id : String) (p : UpdateUserPayload)

/-- The store after running one operation: the updated store on success, the
unchanged store on an error (every raise in the source precedes the first
write of its route). -/
def Op.run : Op → DB → DB
  | .createEvent rand p, db => (create_event rand p db).2
  | .exploreEvents _, db => db
  | .joinEvent p, db =>
    match join_event db p with
    | .ok (_, db') => db'
    | .error _ => db
  | .getEventByCode _, db => db
  | .getEvent _, db => db
  | .uploadMedia p, db =>
    match upload_media db p with
    | .ok (_, db') => db'
    | .error _ => db
  | .listMediaForEvent _ _, db => db
  | .toggleLike mid u, db =>
    match toggle_like db mid u with
    | .ok (_, db') => db'
    | .error _ => db
  | .listComments _, db => db
  | .addComment mid p, db =>
    match add_comment db mid p with
    | .ok (_, db') => db'
    | .error _ => db
  | .getUser u, db => (get_user db u).2
  | .updateUser u p, db =>
    match update_user db u p with
    | .ok (_, db') => db'
    | .error _ => db

/-! Generic lemmas about the store primitives `List.find?`, `updateFirst`,
`deleteFirst` and the set canonicalisation `dedupSet`. -/

theorem find?_congr {α} {p q : α → Bool} (h : ∀ x, p x = q x) :
    ∀ l : List α, l.find? p = l.find? q := by
  intro l
  induction l with
  | nil => rfl
  | cons x xs ih =>
    by_cases hx : p x = true
    · rw [List.find?_cons_of_pos _ hx, List.find?_cons_of_pos _ ((h x) ▸ hx)]
    · have hx' : p x = false := by simpa using hx
      rw [List.find?_cons_of_neg _ (by simp [hx']),
        List.find?_cons_of_neg _ (by simp [(h x) ▸ hx']), ih]

theorem updateFirst_congr {α} {p q : α → Bool} (f : α → α) (h : ∀ x, p x = q x) :
    ∀ l : List α, updateFirst p f l = updateFirst q f l := by
  intro l
  induction l with
  | nil => rfl
  | cons x xs ih =>
    simp only [updateFirst, h x, ih]

theorem find?_split {α} {P : α → Bool} {l : List α} {m : α} (hm : l.find? P = some m) :
    ∃ l₁ l₂, l = l₁ ++ m :: l₂ ∧ ∀ x ∈ l₁, P x = false := by
  induction l with
  | nil => simp at hm
  | cons x xs ih =>
    by_cases hx : P x = true
    · rw [List.find?_cons_of_pos _ hx] at hm
      injection hm with hm
      exact ⟨[], xs, by simp [hm], by simp⟩
    · have hx' : P x = false := by simpa using hx
      rw [List.find?_cons_of_neg _ (by simp [hx'])] at hm
      obtain ⟨l₁, l₂, hl, hfalse⟩ := ih hm
      refine ⟨x :: l₁, l₂, by simp [hl], ?_⟩
      intro y hy
      rcases List.mem_cons.mp hy with h | h
      · exact h ▸ hx'
      · exact hfalse y h

theorem find?_append_false_cons {α} (P : α → Bool) (l₁ l₂ : List α) (a : α)
    (h1 : ∀ x ∈ l₁, P x = false) (ha : P a = true) :
    (l₁ ++ a :: l₂).find? P = some a := by
  induction l₁ with
  | nil => simpa using List.find?_cons_of_pos _ ha
  | cons x xs ih =>
    have hx : P x = false := h1 x (List.mem_cons_self x xs)
    rw [List.cons_append, List.find?_cons_of_neg _ (by simp [hx])]
    exact ih (fun y hy => h1 y (List.mem_cons_of_mem x hy))

theorem find?_append_false {α} (P : α → Bool) (l₁ l₂ : List α)
    (h1 : ∀ x ∈ l₁, P x = false) :
    (l₁ ++ l₂).find? P = l₂.find? P := by
  induction l₁ with
  | nil => rfl
  | cons x xs ih =>
    have hx : P x = false := h1 x (List.mem_cons_self x xs)
    rw [List.cons_append, List.find?_cons_of_neg _ (by simp [hx])]
    exact ih (fun y hy => h1 y (List.mem_cons_of_mem x hy))

theorem updateFirst_append_false_cons {α} (P : α → Bool) (f : α → α) (l₁ l₂ : List α) (a : α)
    (h1 : ∀ x ∈ l₁, P x = false) (ha : P a = true) :
    updateFirst P f (l₁ ++ a :: l₂) = l₁ ++ f a :: l₂ := by
  induction l₁ with
  | nil => simp [updateFirst, ha]
  | cons x xs ih =>
    have hx : P x = false := h1 x (List.mem_cons_self x xs)
    have ih' := ih (fun y hy => h1 y (List.mem_cons_of_mem x hy))
    simp [updateFirst, hx, ih']

theorem deleteFirst_append_false_cons {α} (P : α → Bool) (l₁ l₂ : List α) (a : α)
    (h1 : ∀ x ∈ l₁, P x = false) (ha : P a = true) :
    deleteFirst P (l₁ ++ a :: l₂) = l₁ ++ l₂ := by
  induction l₁ with
  | nil => simp [deleteFirst, ha]
  | cons x xs ih =>
    have hx : P x = false := h1 x (List.mem_cons_self x xs)
    have ih' := ih (fun y hy => h1 y (List.mem_cons_of_mem x hy))
    simp [deleteFirst, hx, ih']

theorem countP_eq_zero_of_false {α} (P : α → Bool) (l : List α)
    (h : ∀ x ∈ l, P x = false) : l.countP P = 0 :=
  List.countP_eq_zero.mpr (by intro a ha; simp [h a ha])

theorem find?_two_lists {α} (R : α → Bool) (l₁ l₂ : List α) (a b : α) (hR : R b = R a) :
    ((l₁ ++ a :: l₂).find? R = none ∧ (l₁ ++ b :: l₂).find? R = none) ∨
    ∃ m m', (l₁ ++ a :: l₂).find? R = some m ∧ (l₁ ++ b :: l₂).find? R = some m' ∧
      (m' = m ∨ (m = a ∧ m' = b)) := by
  rw [List.find?_append, List.find?_append]
  cases hfl : l₁.find? R with
  | some x =>
    exact Or.inr ⟨x, x, rfl, rfl, Or.inl rfl⟩
  | none =>
    simp only [Option.none_or]
    by_cases ha : R a = true
    · rw [List.find?_cons_of_pos _ ha, List.find?_cons_of_pos _ (hR ▸ ha)]
      exact Or.inr ⟨a, b, rfl, rfl, Or.inr ⟨rfl, rfl⟩⟩
    · have ha' : R a = false := by simpa using ha
      rw [List.find?_cons_of_neg _ (by simp [ha']), List.find?_cons_of_neg _ (by simp [hR ▸ ha'])]
      cases h2 : l₂.find? R with
      | some y => exact Or.inr ⟨y, y, rfl, rfl, Or.inl rfl⟩
      | none => exact Or.inl ⟨rfl, rfl⟩

theorem dedupSet_nodup : ∀ l : List String, (dedupSet l).Nodup := by
  intro l
  induction l with
  | nil => exact List.nodup_nil
  | cons x xs ih =>
    by_cases hx : x ∈ dedupSet xs
    · simpa [dedupSet, hx] using ih
    · simp only [dedupSet, if_neg hx]
      exact List.nodup_cons.mpr ⟨hx, ih⟩

theorem mem_dedupSet (a : String) (l : List String) : a ∈ dedupSet l ↔ a ∈ l := by
  induction l generalizing a with
  | nil => simp [dedupSet]
  | cons x xs ih =>
    by_cases hx : x ∈ dedupSet xs
    · rw [dedupSet, if_pos hx, List.mem_cons, ih]
      constructor
      · exact fun h => Or.inr h
      · rintro (h | h)
        · exact h ▸ (ih x).mp hx
        · exact h
    · rw [dedupSet, if_neg hx, List.mem_cons, List.mem_cons, ih]

theorem dedupSet_eq_self : ∀ l : List String, l.Nodup → dedupSet l = l := by
  intro l
  induction l with
  | nil => intro _; rfl
  | cons x xs ih =>
    intro h
    obtain ⟨hx, hxs⟩ := List.nodup_cons.mp h
    have hd : dedupSet xs = xs := ih hxs
    have hc : x ∉ dedupSet xs := by rw [hd]; exact hx
    rw [dedupSet, if_neg hc, hd]

theorem joinParticipants_mem (u : String) (l : List String) (v : String) :
    v ∈ joinParticipants u l ↔ v ∈ l ∨ v = u := by
  rw [joinParticipants]
  by_cases hc : u ∈ dedupSet l
  · rw [if_pos hc, mem_dedupSet]
    constructor
    · exact fun h => Or.inl h
    · rintro (h | h)
      · exact h
      · exact h ▸ (mem_dedupSet u l).mp hc
  · rw [if_neg hc]
    simp [List.mem_append, mem_dedupSet]

theorem joinParticipants_nodup (u : String) (l : List String) :
    (joinParticipants u l).Nodup := by
  rw [joinParticipants]
  by_cases hc : u ∈ dedupSet l
  · rw [if_pos hc]; exact dedupSet_nodup l
  · rw [if_neg hc]
    refine List.Nodup.append (dedupSet_nodup l) (List.nodup_singleton u) ?_
    intro a ha hb
    have hau : a = u := by simpa using hb
    exact hc (hau ▸ ha)

theorem joinParticipants_self_mem (u : String) (l : List String) :
    u ∈ joinParticipants u l :=
  (joinParticipants_mem u l u).mpr (Or.inr rfl)

theorem joinParticipants_of_mem_nodup (u : String) (l : List String)
    (hm : u ∈ l) (hn : l.Nodup) : joinParticipants u l = l := by
  have hd : dedupSet l = l := dedupSet_eq_self l hn
  rw [joinParticipants, hd, if_pos hm]

theorem joinParticipants_idem (u : String) (l : List String) :
    joinParticipants u (joinParticipants u l) = joinParticipants u l :=
  joinParticipants_of_mem_nodup u _ (joinParticipants_self_mem u l) (joinParticipants_nodup u l)

/-- C1 (amended): for a store satisfying the data-model invariants (unique
like-row ids, at most one Like row per (media_id, user_id) pair, a fresh id
counter) and whose counter has not drifted below the like rows
(`likes_count ≥ 0`, and `≥ 1` when the pair's Like row exists), toggling like
twice sequentially by the same user succeeds both times and returns the media
to its original `likes_count`, each toggle deleting or inserting exactly one
Like row for the pair.  The drifted store refutes the unconditional claim:
see the counterexample. -/
theorem toggle_like_twice_net_zero (db : DB) (mid u : String) (m : MediaDoc)
    (hv : isValidObjectId mid = true)
    (hm : db.media.find? (fun x => x._id == lowerStr mid) = some m)
    (hlid : (db.like.map LikeDoc._id).Nodup)
    (hfresh : oidOfNat db.nextId ∉ db.like.map LikeDoc._id)
    (hpair : countLikes db mid u ≤ 1)
    (h0 : 0 ≤ m.likes_count)
    (h1 : countLikes db mid u = 1 → 1 ≤ m.likes_count) :
    ∃ m₁ db₁ m₂ db₂,
      toggle_like db mid u = Except.ok (m₁, db₁) ∧
      toggle_like db₁ mid u = Except.ok (m₂, db₂) ∧
      m₂.likes_count = m.likes_count ∧
      countLikes db₂ mid u = countLikes db mid u ∧
      (countLikes db mid u = 1 →
        countLikes db₁ mid u = 0 ∧ m₁.likes_count = m.likes_count - 1) ∧
      (countLikes db mid u = 0 →
        countLikes db₁ mid u = 1 ∧ m₁.likes_count = m.likes_count + 1) := by
  have hPm : (m._id == lowerStr mid) = true := by
    have h := List.find?_some hm
    simpa using h
  have hid_m : m._id = lowerStr mid := beq_iff_eq.mp hPm
  obtain ⟨L₁, L₂, hLsplit, hLfalse⟩ := find?_split hm
  have hQP : ∀ x : MediaDoc, (x._id == m._id) = (x._id == lowerStr mid) := fun x => by rw [hid_m]
  cases hl : db.like.find? (fun l => l.media_id == mid && l.user_id == u) with
  | some l0 =>
    have hpl0 : (l0.media_id == mid && l0.user_id == u) = true := by
      have h := List.find?_some hl
      simpa using h
    obtain ⟨K₁, K₂, hKsplit, hKfalse⟩ := find?_split hl
    have hcK1 : K₁.countP (fun l => l.media_id == mid && l.user_id == u) = 0 :=
      countP_eq_zero_of_false _ _ hKfalse
    have hcount : countLikes db mid u =
        1 + K₂.countP (fun l => l.media_id == mid && l.user_id == u) := by
      unfold countLikes
      rw [hKsplit, List.countP_append, hcK1, List.countP_cons, hpl0]
      simp only [if_true]
      omega
    have hK2 : K₂.countP (fun l => l.media_id == mid && l.user_id == u) = 0 := by omega
    have hcount1 : countLikes db mid u = 1 := by omega
    have hm1 : 1 ≤ m.likes_count := h1 hcount1
    have hK1id : ∀ x ∈ K₁, (x._id == l0._id) = false := by
      intro x hx
      have hmem : l0._id ∉ (K₁.map LikeDoc._id ++ K₂.map LikeDoc._id) := by
        have hn := hlid
        rw [hKsplit, List.map_append, List.map_cons, List.nodup_middle] at hn
        exact (List.nodup_cons.mp hn).1
      have hne : x._id ≠ l0._id := by
        intro he
        exact hmem (List.mem_append_left _ (he ▸ List.mem_map_of_mem LikeDoc._id hx))
      exact beq_eq_false_iff_ne.mpr hne
    have hdel : deleteFirst (fun l => l._id == l0._id) db.like = K₁ ++ K₂ := by
      rw [hKsplit]
      exact deleteFirst_append_false_cons _ _ _ _ hK1id (beq_self_eq_true _)
    have hupd : updateFirst (fun x => x._id == m._id)
        (fun x => { x with likes_count := max 0 (m.likes_count + -1) }) db.media =
        L₁ ++ ({ m with likes_count := max 0 (m.likes_count + -1) } : MediaDoc) :: L₂ := by
      rw [updateFirst_congr _ hQP, hLsplit]
      exact updateFirst_append_false_cons _ _ _ _ _ hLfalse hPm
    have hrefind : (L₁ ++ ({ m with likes_count := max 0 (m.likes_count + -1) } : MediaDoc) :: L₂).find?
        (fun x => x._id == m._id) =
        some ({ m with likes_count := max 0 (m.likes_count + -1) } : MediaDoc) := by
      rw [find?_congr hQP]
      exact find?_append_false_cons _ _ _ _ hLfalse hPm
    have ht1 : toggle_like db mid u = Except.ok
        (({ m with likes_count := max 0 (m.likes_count + -1) } : MediaDoc),
         { db with like := K₁ ++ K₂,
                   media := L₁ ++ ({ m with likes_count := max 0 (m.likes_count + -1) } : MediaDoc) :: L₂ }) := by
      unfold toggle_like
      rw [if_pos hv]
      simp only [hm, hl]
      rw [hdel, hupd, hrefind]
    -- second toggle: the like row is gone, so it is inserted again
    have hm₂ : (L₁ ++ ({ m with likes_count := max 0 (m.likes_count + -1) } : MediaDoc) :: L₂).find?
        (fun x => x._id == lowerStr mid) =
        some ({ m with likes_count := max 0 (m.likes_count + -1) } : MediaDoc) :=
      find?_append_false_cons _ _ _ _ hLfalse hPm
    have hl₂ : (K₁ ++ K₂).find? (fun l => l.media_id == mid && l.user_id == u) = none := by
      rw [find?_append_false _ _ _ hKfalse]
      exact List.find?_eq_none.mpr (List.countP_eq_zero.mp hK2)
    have harith : max 0 (max 0 (m.likes_count + -1) + 1) = m.likes_count := by
      have ha : max 0 (m.likes_count + -1) = m.likes_count + -1 := max_eq_right (by omega)
      rw [ha]
      have hb : m.likes_count + -1 + 1 = m.likes_count := by omega
      rw [hb]
      exact max_eq_right h0
    have hupd₂ : updateFirst (fun x => x._id == m._id)
        (fun x => ({ x with likes_count := m.likes_count } : MediaDoc))
        (L₁ ++ ({ m with likes_count := max 0 (m.likes_count + -1) } : MediaDoc) :: L₂) =
        L₁ ++ m :: L₂ := by
      rw [updateFirst_congr _ hQP]
      exact updateFirst_append_false_cons _ _ _ _ _ hLfalse hPm
    have hrefind₂ : (L₁ ++ m :: L₂).find? (fun x => x._id == m._id) = some m := by
      rw [find?_congr hQP]
      exact find?_append_false_cons _ _ _ _ hLfalse hPm
    have ht2 : toggle_like
        ({ db with like := K₁ ++ K₂,
                   media := L₁ ++ ({ m with likes_count := max 0 (m.likes_count + -1) } : MediaDoc) :: L₂ }) mid u =
        Except.ok (m,
          { db with
            like := (K₁ ++ K₂) ++ [{ _id := oidOfNat db.nextId, media_id := mid, user_id := u }]
            media := L₁ ++ m :: L₂
            nextId := db.nextId + 1 }) := by
      unfold toggle_like
      rw [if_pos hv]
      simp only [hm₂, hl₂]
      rw [harith, hupd₂, hrefind₂]
    have hcLdb₁ : countLikes
        ({ db with like := K₁ ++ K₂,
                   media := L₁ ++ ({ m with likes_count := max 0 (m.likes_count + -1) } : MediaDoc) :: L₂ }) mid u = 0 := by
      unfold countLikes
      rw [List.countP_append, hcK1, hK2]
    have hcLdb₂ : countLikes
        ({ db with
            like := (K₁ ++ K₂) ++ [{ _id := oidOfNat db.nextId, media_id := mid, user_id := u }]
            media := L₁ ++ m :: L₂
            nextId := db.nextId + 1 }) mid u = 1 := by
      unfold countLikes
      rw [List.countP_append, List.countP_append, hcK1, hK2]
      simp
    refine ⟨_, _, _, _, ht1, ht2, rfl, ?_, ?_, ?_⟩
    · rw [hcLdb₂, hcount1]
    · intro _
      refine ⟨hcLdb₁, ?_⟩
      show max 0 (m.likes_count + -1) = m.likes_count - 1
      have ha : max 0 (m.likes_count + -1) = m.likes_count + -1 := max_eq_right (by omega)
      rw [ha]
      omega
    · intro hc0
      rw [hcount1] at hc0
      omega
  | none =>
    have hallfalse : ∀ x ∈ db.like, (x.media_id == mid && x.user_id == u) = false := by
      intro x hx
      have h := List.find?_eq_none.mp hl x hx
      simpa using h
    have hcount0' : db.like.countP (fun l => l.media_id == mid && l.user_id == u) = 0 :=
      countP_eq_zero_of_false _ _ hallfalse
    have hcount0 : countLikes db mid u = 0 := hcount0'
    have harith1 : max 0 (m.likes_count + 1) = m.likes_count + 1 := max_eq_right (by omega)
    have hupd : updateFirst (fun x => x._id == m._id)
        (fun x => ({ x with likes_count := m.likes_count + 1 } : MediaDoc)) db.media =
        L₁ ++ ({ m with likes_count := m.likes_count + 1 } : MediaDoc) :: L₂ := by
      rw [updateFirst_congr _ hQP, hLsplit]
      exact updateFirst_append_false_cons _ _ _ _ _ hLfalse hPm
    have hrefind : (L₁ ++ ({ m with likes_count := m.likes_count + 1 } : MediaDoc) :: L₂).find?
        (fun x => x._id == m._id) =
        some ({ m with likes_count := m.likes_count + 1 } : MediaDoc) := by
      rw [find?_congr hQP]
      exact find?_append_false_cons _ _ _ _ hLfalse hPm
    have ht1 : toggle_like db mid u = Except.ok
        (({ m with likes_count := m.likes_count + 1 } : MediaDoc),
         { db with
            like := db.like ++ [{ _id := oidOfNat db.nextId, media_id := mid, user_id := u }]
            media := L₁ ++ ({ m with likes_count := m.likes_count + 1 } : MediaDoc) :: L₂
            nextId := db.nextId + 1 }) := by
      unfold toggle_like
      rw [if_pos hv]
      simp only [hm, hl]
      rw [harith1, hupd, hrefind]
    -- second toggle: the inserted like row is found and deleted again
    have hm₂ : (L₁ ++ ({ m with likes_count := m.likes_count + 1 } : MediaDoc) :: L₂).find?
        (fun x => x._id == lowerStr mid) =
        some ({ m with likes_count := m.likes_count + 1 } : MediaDoc) :=
      find?_append_false_cons _ _ _ _ hLfalse hPm
    have hl₂ : (db.like ++ [({ _id := oidOfNat db.nextId, media_id := mid, user_id := u } : LikeDoc)]).find?
        (fun l => l.media_id == mid && l.user_id == u) =
        some ({ _id := oidOfNat db.nextId, media_id := mid, user_id := u } : LikeDoc) :=
      find?_append_false_cons _ _ _ _ hallfalse (by simp)
    have hdb_id_false : ∀ x ∈ db.like, (x._id == oidOfNat db.nextId) = false := by
      intro x hx
      refine beq_eq_false_iff_ne.mpr ?_
      intro he
      exact hfresh (he ▸ List.mem_map_of_mem LikeDoc._id hx)
    have hdel₂ : deleteFirst (fun l => l._id == oidOfNat db.nextId)
        (db.like ++ [({ _id := oidOfNat db.nextId, media_id := mid, user_id := u } : LikeDoc)]) = db.like := by
      have h := deleteFirst_append_false_cons (fun l => l._id == oidOfNat db.nextId) db.like []
        ({ _id := oidOfNat db.nextId, media_id := mid, user_id := u } : LikeDoc) hdb_id_false (beq_self_eq_true _)
      simpa using h
    have harith2 : max 0 (m.likes_count + 1 + -1) = m.likes_count := by
      have hb : m.likes_count + 1 + -1 = m.likes_count := by omega
      rw [hb]
      exact max_eq_right h0
    have hupd₂ : updateFirst (fun x => x._id == m._id)
        (fun x => ({ x with likes_count := m.likes_count } : MediaDoc))
        (L₁ ++ ({ m with likes_count := m.likes_count + 1 } : MediaDoc) :: L₂) =
        L₁ ++ m :: L₂ := by
      rw [updateFirst_congr _ hQP]
      exact updateFirst_append_false_cons _ _ _ _ _ hLfalse hPm
    have hrefind₂ : (L₁ ++ m :: L₂).find? (fun x => x._id == m._id) = some m := by
      rw [find?_congr hQP]
      exact find?_append_false_cons _ _ _ _ hLfalse hPm
    have ht2 : toggle_like
        ({ db with
            like := db.like ++ [{ _id := oidOfNat db.nextId, media_id := mid, user_id := u }]
            media := L₁ ++ ({ m with likes_count := m.likes_count + 1 } : MediaDoc) :: L₂
            nextId := db.nextId + 1 }) mid u =
        Except.ok (m,
          { db with
            like := db.like
            media := L₁ ++ m :: L₂
            nextId := db.nextId + 1 }) := by
      unfold toggle_like
      rw [if_pos hv]
      simp only [hm₂, hl₂]
      rw [hdel₂, harith2, hupd₂, hrefind₂]
    have hcLdb₁ : countLikes
        ({ db with
            like := db.like ++ [{ _id := oidOfNat db.nextId, media_id := mid, user_id := u }]
            media := L₁ ++ ({ m with likes_count := m.likes_count + 1 } : MediaDoc) :: L₂
            nextId := db.nextId + 1 }) mid u = 1 := by
      unfold countLikes
      rw [List.countP_append, hcount0']
      simp
    have hcLdb₂ : countLikes
        ({ db with
            like := db.like
            media := L₁ ++ m :: L₂
            nextId := db.nextId + 1 }) mid u = 0 := hcount0
    refine ⟨_, _, _, _, ht1, ht2, rfl, ?_, ?_, ?_⟩
    · rw [hcLdb₂, hcount0]
    · intro hc1
      rw [hcount0] at hc1
      omega
    · intro _
      exact ⟨hcLdb₁, rfl⟩

/-- Media id used by the C1 witness store. -/
def midC1 : String := "aaaaaaaaaaaaaaaaaaaaaaaa"

/-- A media document with one like and a consistent counter. -/
def mC1 : MediaDoc :=
  { _id := midC1, event_id := "e", user_id := "u1", url := "u", media_type := "photo"
    challenge := none, likes_count := 1, comments_count := 0, created_at := none }

/-- Store with one media document and its single like row. -/
def dbC1 : DB :=
  { emptyDB with media := [mC1]
                 like := [{ _id := "bbbbbbbbbbbbbbbbbbbbbbbb", media_id := midC1, user_id := "u1" }] }

/-- Media id used by the C1 counterexample store. -/
def midC1x : String := "cccccccccccccccccccccccc"

/-- A drifted media document: a like row exists but `likes_count` is 0. -/
def mC1x : MediaDoc :=
  { _id := midC1x, event_id := "e", user_id := "u1", url := "u", media_type := "photo"
    challenge := none, likes_count := 0, comments_count := 0, created_at := none }

/-- Store carrying the drifted media document and its like row. -/
def dbC1x : DB :=
  { emptyDB with media := [mC1x]
                 like := [{ _id := "dddddddddddddddddddddddd", media_id := midC1x, user_id := "u1" }] }

/-- Sequential double toggle observed through the final `likes_count`;
`none` when either call fails. -/
def toggleTwiceCount (db : DB) (mid u : String) : Option Int :=
  match toggle_like db mid u with
  | .error _ => none
  | .ok (_, db₁) =>
    match toggle_like db₁ mid u with
    | .error _ => none
    | .ok (m₂, _) => some m₂.likes_count

/-- C1 witness: on a store whose counter agrees with the like rows, the double
toggle computes and restores the original count of 1. -/
theorem toggle_like_twice_net_zero_witness :
    ∃ m₁ db₁ m₂ db₂,
      toggle_like dbC1 midC1 "u1" = Except.ok (m₁, db₁) ∧
      toggle_like db₁ midC1 "u1" = Except.ok (m₂, db₂) ∧
      m₂.likes_count = mC1.likes_count ∧
      countLikes db₂ midC1 "u1" = countLikes dbC1 midC1 "u1" ∧
      (countLikes dbC1 midC1 "u1" = 1 →
        countLikes db₁ midC1 "u1" = 0 ∧ m₁.likes_count = mC1.likes_count - 1) ∧
      (countLikes dbC1 midC1 "u1" = 0 →
        countLikes db₁ midC1 "u1" = 1 ∧ m₁.likes_count = mC1.likes_count + 1) :=
  toggle_like_twice_net_zero dbC1 midC1 "u1" mC1 (by decide) (by decide) (by decide)
    (by decide) (by decide) (by decide) (by decide)

/-- C1 counterexample. -/
theorem toggle_like_twice_counterexample :
    toggleTwiceCount dbC1x midC1x "u1" = some 1 ∧
    mC1x.likes_count = 0 ∧
    dbC1x.media.find? (fun x => x._id == lowerStr midC1x) = some mC1x ∧
    countLikes dbC1x midC1x "u1" = 1 := by decide

theorem upsertGuestProfile_event (u : String) (un : Option String) (db : DB) :
    (upsertGuestProfile u un db).event = db.event := by
  unfold upsertGuestProfile
  split <;> rfl

theorem upsertGuestProfile_media (u : String) (un : Option String) (db : DB) :
    (upsertGuestProfile u un db).media = db.media := by
  unfold upsertGuestProfile
  split <;> rfl

theorem upsertGuestProfile_comment (u : String) (un : Option String) (db : DB) :
    (upsertGuestProfile u un db).comment = db.comment := by
  unfold upsertGuestProfile
  split <;> rfl

theorem upsertGuestProfile_like (u : String) (un : Option String) (db : DB) :
    (upsertGuestProfile u un db).like = db.like := by
  unfold upsertGuestProfile
  split <;> rfl

theorem findEventByCode_update (l₁ l₂ : List EventDoc) (a b : EventDoc) (code : String)
    (hcode : b.code = a.code) (ev : EventDoc)
    (h : findEventByCode (l₁ ++ a :: l₂) code = some ev) :
    ∃ ev₂, findEventByCode (l₁ ++ b :: l₂) code = some ev₂ ∧
      (ev₂ = ev ∨ (ev = a ∧ ev₂ = b)) := by
  unfold findEventByCode at h ⊢
  have hR₁ : (b.code == upperStr code) = (a.code == upperStr code) := by rw [hcode]
  have hR₂ : (b.code == code) = (a.code == code) := by rw [hcode]
  rcases find?_two_lists (fun e => e.code == upperStr code) l₁ l₂ a b hR₁ with
    ⟨hn₁, hn₂⟩ | ⟨m, m', hm, hm', hd⟩
  · simp only [hn₁] at h
    simp only [hn₂]
    rcases find?_two_lists (fun e => e.code == code) l₁ l₂ a b hR₂ with
      ⟨hn₁', hn₂'⟩ | ⟨m, m', hm, hm', hd⟩
    · rw [hn₁'] at h
      exact absurd h (by simp)
    · rw [hm] at h
      injection h with h
      refine ⟨m', by rw [hm'], ?_⟩
      rcases hd with hd | ⟨hd1, hd2⟩
      · exact Or.inl (h ▸ hd)
      · exact Or.inr ⟨h ▸ hd1, hd2⟩
  · simp only [hm] at h
    injection h with h
    refine ⟨m', by simp only [hm'], ?_⟩
    rcases hd with hd | ⟨hd1, hd2⟩
    · exact Or.inl (h ▸ hd)
    · exact Or.inr ⟨h ▸ hd1, hd2⟩

/-- C2: joining is idempotent in participant membership: when a first join
succeeds with event `e₁`, joining again with the same payload succeeds,
returns the very same event (participant list unchanged), leaves the stored
event collection unchanged, and the participants behave as a deduplicated
set containing the joining user. -/
theorem join_event_idempotent (db : DB) (p : JoinEventPayload) (e₁ : EventDoc) (db₁ : DB)
    (h₁ : join_event db p = Except.ok (e₁, db₁)) :
    ∃ db₂, join_event db₁ p = Except.ok (e₁, db₂) ∧
      db₂.event = db₁.event ∧
      p.user_id ∈ e₁.participants ∧
      e₁.participants.Nodup := by
  unfold join_event at h₁
  cases hfind : findEventByCode db.event p.code with
  | none =>
    rw [hfind] at h₁
    exact absurd h₁ (by simp)
  | some ev =>
    simp only [hfind] at h₁
    rw [upsertGuestProfile_event] at h₁
    have hev_mem : ev ∈ db.event := by
      unfold findEventByCode at hfind
      cases hcase : db.event.find? (fun e => e.code == upperStr p.code) with
      | none =>
        simp only [hcase] at hfind
        exact List.mem_of_find?_eq_some hfind
      | some e' =>
        simp only [hcase] at hfind
        injection hfind with hh
        exact hh ▸ List.mem_of_find?_eq_some hcase
    have hQsome : (db.event.find? (fun e => e._id == ev._id)).isSome := by
      rw [List.find?_isSome]
      exact ⟨ev, hev_mem, by simp⟩
    obtain ⟨m, hQm⟩ := Option.isSome_iff_exists.mp hQsome
    have hQmid : (m._id == ev._id) = true := by
      have h := List.find?_some hQm
      simpa using h
    have hmid : m._id = ev._id := beq_iff_eq.mp hQmid
    obtain ⟨E₁, E₂, hEsplit, hEfalse⟩ := find?_split hQm
    have hupdJ : updateFirst (fun e => e._id == ev._id)
        (fun e => { e with participants := joinParticipants p.user_id ev.participants }) db.event =
        E₁ ++ ({ m with participants := joinParticipants p.user_id ev.participants } : EventDoc) :: E₂ := by
      rw [hEsplit]
      exact updateFirst_append_false_cons _ _ _ _ _ hEfalse hQmid
    have hrefindJ : (E₁ ++ ({ m with participants := joinParticipants p.user_id ev.participants } : EventDoc) :: E₂).find?
        (fun e => e._id == ev._id) =
        some ({ m with participants := joinParticipants p.user_id ev.participants } : EventDoc) :=
      find?_append_false_cons _ _ _ _ hEfalse hQmid
    simp only [hupdJ, hrefindJ] at h₁
    injection h₁ with h₁'
    injection h₁' with he hdb
    subst hdb
    subst he
    -- second join on the updated store
    have hfind₂0 : ∃ ev₂, findEventByCode
        (E₁ ++ ({ m with participants := joinParticipants p.user_id ev.participants } : EventDoc) :: E₂) p.code =
        some ev₂ ∧
        (ev₂ = ev ∨ (ev = m ∧ ev₂ = { m with participants := joinParticipants p.user_id ev.participants })) := by
      apply findEventByCode_update E₁ E₂ m
        ({ m with participants := joinParticipants p.user_id ev.participants } : EventDoc) p.code rfl ev
      rw [← hEsplit]
      exact hfind
    obtain ⟨ev₂, hfind₂, hd⟩ := hfind₂0
    have hid₂ : ev₂._id = ev._id := by
      rcases hd with hd | ⟨hd1, hd2⟩
      · rw [hd]
      · rw [hd2]
        exact hmid
    have hps₂ : joinParticipants p.user_id ev₂.participants =
        joinParticipants p.user_id ev.participants := by
      rcases hd with hd | ⟨hd1, hd2⟩
      · rw [hd]
      · rw [hd2]
        exact joinParticipants_idem p.user_id ev.participants
    have hQQ : ∀ x : EventDoc, (x._id == ev₂._id) = (x._id == ev._id) := fun x => by rw [hid₂]
    have hupdJ₂ : updateFirst (fun e => e._id == ev₂._id)
        (fun e => { e with participants := joinParticipants p.user_id ev.participants })
        (E₁ ++ ({ m with participants := joinParticipants p.user_id ev.participants } : EventDoc) :: E₂) =
        E₁ ++ ({ m with participants := joinParticipants p.user_id ev.participants } : EventDoc) :: E₂ := by
      rw [updateFirst_congr _ hQQ]
      exact updateFirst_append_false_cons _ _ _ _ _ hEfalse hQmid
    have hrefindJ₂ : (E₁ ++ ({ m with participants := joinParticipants p.user_id ev.participants } : EventDoc) :: E₂).find?
        (fun e => e._id == ev₂._id) =
        some ({ m with participants := joinParticipants p.user_id ev.participants } : EventDoc) := by
      rw [find?_congr hQQ]
      exact hrefindJ
    refine ⟨upsertGuestProfile p.user_id p.username
      { (upsertGuestProfile p.user_id p.username
          { db with event := E₁ ++ ({ m with participants := joinParticipants p.user_id ev.participants } : EventDoc) :: E₂ }) with
        event := E₁ ++ ({ m with participants := joinParticipants p.user_id ev.participants } : EventDoc) :: E₂ }, ?_, ?_, ?_, ?_⟩
    · unfold join_event
      simp only [upsertGuestProfile_event, hfind₂, hps₂, hupdJ₂, hrefindJ₂]
    · rw [upsertGuestProfile_event, upsertGuestProfile_event]
    · exact joinParticipants_self_mem p.user_id ev.participants
    · exact joinParticipants_nodup p.user_id ev.participants

/-- Event used by the C2 witness store. -/
def evC2 : EventDoc :=
  { _id := "eeeeeeeeeeeeeeeeeeeeeeee", code := "ABC123", title := "t", date_iso := none
    location := none, access := "public", cover_url := none, participants := []
    challenges := [], ended := false, created_at := none }

/-- Store holding only `evC2`. -/
def dbC2 : DB := { emptyDB with event := [evC2] }

/-- The event after the first join of "u1" (via the lowercased code). -/
def evC2' : EventDoc := { evC2 with participants := ["u1"] }

/-- The store after the first join: event updated, guest profile created. -/
def dbC2' : DB :=
  { emptyDB with
    event := [evC2']
    userprofile := [{ user_id := "u1", username := some "Guest", avatar_url := none
                      bio := none, following_events := some [] }] }

/-- C2 witness. -/
theorem join_event_idempotent_witness :
    ∃ db₂, join_event dbC2' { code := "abc123", user_id := "u1" } = Except.ok (evC2', db₂) ∧
      db₂.event = dbC2'.event ∧
      "u1" ∈ evC2'.participants ∧
      evC2'.participants.Nodup :=
  join_event_idempotent dbC2 { code := "abc123", user_id := "u1" } evC2' dbC2' (by rfl)

/-- Randomness source for the C3 store (draws are irrelevant to ordering). -/
def c3rand : Nat → Nat := fun _ => 0

/-- First creation: event "A" into the empty store. -/
def c3s1 : EventDoc × DB := create_event c3rand { title := "A" } emptyDB

/-- Second creation: event "B" after "A". -/
def c3s2 : EventDoc × DB := create_event c3rand { title := "B" } c3s1.2

/-- C3: two public events created in the order A then B; since `create_event`
never writes the `created_at` key that `explore_events` sorts on, the sort
leaves both documents in insertion order and explore returns the OLDER event
first — not "newest created first". -/
theorem explore_events_not_newest_first :
    (explore_events c3s2.2 24).map (fun it => it.event._id) = [c3s1.1._id, c3s2.1._id] ∧
    c3s1.1._id ≠ c3s2.1._id ∧
    c3s1.1.created_at = none ∧ c3s2.1.created_at = none ∧
    c3s1.1.access = "public" ∧ c3s2.1.access = "public" := by decide

/-- C4 counterexample: a malformed media id makes toggle-like fail with
status 400 ("Invalid media id"), not with NotFound (404) as claimed. -/
theorem toggle_like_malformed_counterexample :
    toggle_like emptyDB "zz" "u1" = Except.error ⟨400, "Invalid media id"⟩ ∧
    (400 : Nat) ≠ 404 :=
  ⟨rfl, by decide⟩

/-- C4 (amended): toggle-like fails with InvalidArgument (400) on a malformed
media id and with NotFound (404) on a well-formed id of an absent media; in
either failure the store is unchanged. -/
theorem toggle_like_error_modes (db : DB) (mid u : String) :
    (isValidObjectId mid = false → toggle_like db mid u = Except.error ⟨400, "Invalid media id"⟩) ∧
    (isValidObjectId mid = true →
      db.media.find? (fun x => x._id == lowerStr mid) = none →
      toggle_like db mid u = Except.error ⟨404, "Media not found"⟩) ∧
    (∀ e, toggle_like db mid u = Except.error e → Op.run (.toggleLike mid u) db = db) := by
  refine ⟨?_, ?_, ?_⟩
  · intro h
    unfold toggle_like
    rw [if_neg (by simp [h])]
  · intro hv hn
    unfold toggle_like
    rw [if_pos hv]
    simp only [hn]
  · intro e he
    simp only [Op.run, he]

/-- C4 witness. -/
theorem toggle_like_error_modes_witness :
    toggle_like emptyDB "ffffffffffffffffffffffff" "u1" = Except.error ⟨404, "Media not found"⟩ ∧
    toggle_like emptyDB "zz-bad" "u1" = Except.error ⟨400, "Invalid media id"⟩ ∧
    Op.run (.toggleLike "zz-bad" "u1") emptyDB = emptyDB := by
  refine ⟨?_, ?_, ?_⟩
  · exact (toggle_like_error_modes emptyDB "ffffffffffffffffffffffff" "u1").2.1 (by decide) (by decide)
  · exact (toggle_like_error_modes emptyDB "zz-bad" "u1").1 (by decide)
  · exact (toggle_like_error_modes emptyDB "zz-bad" "u1").2.2 _
      ((toggle_like_error_modes emptyDB "zz-bad" "u1").1 (by decide))

/-- C5: upload-media rejects a malformed event id with InvalidArgument (400)
independently of the store contents (no query is needed), fails with
NotFound (404) when the well-formed event id has no event, succeeds with
zero counters otherwise, and the two errors are distinct. -/
theorem upload_media_error_modes (p : UploadMediaPayload) :
    (isValidObjectId p.event_id = false →
      ∀ db : DB, upload_media db p = Except.error ⟨400, "Invalid event id"⟩) ∧
    (∀ db : DB, isValidObjectId p.event_id = true →
      (db.event.find? (fun e => e._id == lowerStr p.event_id) = none →
        upload_media db p = Except.error ⟨404, "Event not found"⟩) ∧
      (∀ ev, db.event.find? (fun e => e._id == lowerStr p.event_id) = some ev →
        ∃ m db', upload_media db p = Except.ok (m, db') ∧
          m.likes_count = 0 ∧ m.comments_count = 0 ∧ db'.media = db.media ++ [m])) ∧
    ((⟨400, "Invalid event id"⟩ : HTTPError) ≠ ⟨404, "Event not found"⟩) := by
  refine ⟨?_, ?_, by decide⟩
  · intro h db
    unfold upload_media
    rw [if_neg (by simp [h])]
  · intro db hv
    constructor
    · intro hn
      unfold upload_media
      rw [if_pos hv]
      simp only [hn]
    · intro ev hev
      refine ⟨{ _id := oidOfNat db.nextId, event_id := p.event_id, user_id := p.user_id, url := p.url, media_type := p.media_type, challenge := p.challenge, likes_count := 0, comments_count := 0, created_at := none }, { db with media := db.media ++ [{ _id := oidOfNat db.nextId, event_id := p.event_id, user_id := p.user_id, url := p.url, media_type := p.media_type, challenge := p.challenge, likes_count := 0, comments_count := 0, created_at := none }], nextId := db.nextId + 1 }, ?_, rfl, rfl, rfl⟩
      unfold upload_media
      rw [if_pos hv]
      simp only [hev]

/-- Event used by the C5 witness store. -/
def evC5 : EventDoc :=
  { _id := "abcdefabcdefabcdefabcdef", code := "QQQQQQ", title := "t", date_iso := none
    location := none, access := "public", cover_url := none, participants := []
    challenges := [], ended := false, created_at := none }

/-- Store holding only `evC5`. -/
def dbC5 : DB := { emptyDB with event := [evC5] }

/-- C5 witness. -/
theorem upload_media_error_modes_witness :
    upload_media emptyDB { event_id := "not-hex", user_id := "u", url := "x" } =
      Except.error ⟨400, "Invalid event id"⟩ ∧
    upload_media emptyDB { event_id := "abcdefabcdefabcdefabcdef", user_id := "u", url := "x" } =
      Except.error ⟨404, "Event not found"⟩ ∧
    ∃ m db', upload_media dbC5 { event_id := "abcdefabcdefabcdefabcdef", user_id := "u", url := "x" } =
        Except.ok (m, db') ∧
      m.likes_count = 0 ∧ m.comments_count = 0 ∧ db'.media = dbC5.media ++ [m] := by
  refine ⟨?_, ?_, ?_⟩
  · exact (upload_media_error_modes { event_id := "not-hex", user_id := "u", url := "x" }).1
      (by decide) emptyDB
  · exact ((upload_media_error_modes { event_id := "abcdefabcdefabcdefabcdef", user_id := "u", url := "x" }).2.1
      emptyDB (by decide)).1 (by decide)
  · exact ((upload_media_error_modes { event_id := "abcdefabcdefabcdefabcdef", user_id := "u", url := "x" }).2.1
      dbC5 (by decide)).2 evC5 (by decide)

/-- Helper: an in-bounds `getD` is a member of the list. -/
theorem getD_mem_of_lt {α} (l : List α) (n : Nat) (d : α) (h : n < l.length) :
    l.getD n d ∈ l := by
  rw [List.getD_eq_getElem l d h]
  exact List.getElem_mem h

/-- C6: every created event has a 6-character code over A-Z0-9, empty
participants and `ended = false`; a second creation with the same random
draws yields the same code and both events are stored (no uniqueness
check rejects the duplicate code). -/
theorem create_event_code_shape (rand : Nat → Nat) (p q : CreateEventPayload) (db : DB) :
    ((create_event rand p db).1.code.data.length = 6) ∧
    (∀ c ∈ (create_event rand p db).1.code.data, c ∈ "ABCDEFGHIJKLMNOPQRSTUVWXYZ0123456789".data) ∧
    (create_event rand p db).1.participants = [] ∧
    (create_event rand p db).1.ended = false ∧
    (create_event rand q (create_event rand p db).2).1.code = (create_event rand p db).1.code ∧
    (create_event rand q (create_event rand p db).2).2.event =
      db.event ++ [(create_event rand p db).1] ++ [(create_event rand q (create_event rand p db).2).1] := by
  refine ⟨?_, ?_, rfl, rfl, rfl, ?_⟩
  · simp [create_event, generate_code]
  · intro c hc
    simp only [create_event, generate_code, List.mem_map] at hc
    obtain ⟨i, _, hcc⟩ := hc
    have hlt : rand i % 36 < ("ABCDEFGHIJKLMNOPQRSTUVWXYZ0123456789".data).length := by
      have h36 : ("ABCDEFGHIJKLMNOPQRSTUVWXYZ0123456789".data).length = 36 := by decide
      rw [h36]
      exact Nat.mod_lt _ (by decide)
    exact hcc ▸ getD_mem_of_lt _ _ _ hlt
  · simp [create_event]

/-- C7: get-user for an unknown user id synthesizes the default profile
(username "Guest", no avatar, empty following list), annotates it from the
store, performs no write (the store is returned unchanged), and a repeated
call returns the same synthesized result. -/
theorem get_user_default_no_write (db : DB) (u : String)
    (h : db.userprofile.find? (fun pr => pr.user_id == u) = none) :
    ((get_user db u).2 = db) ∧
    (get_user db u).1.username = some "Guest" ∧
    (get_user db u).1.avatar_url = none ∧
    (get_user db u).1.following_events = some [] ∧
    (∀ e, e ∈ (get_user db u).1.joined_events ↔ e ∈ db.event ∧ e.participants.contains u = true) ∧
    (get_user db u).1.uploads_count = db.media.countP (fun m => m.user_id == u) ∧
    get_user ((get_user db u).2) u = get_user db u := by
  refine ⟨rfl, ?_, ?_, ?_, ?_, ?_, rfl⟩
  · simp [get_user, h]
  · simp [get_user, h]
  · simp [get_user, h]
  · intro e
    simp [get_user, List.mem_filter]
  · simp [get_user, List.countP_eq_length_filter]

/-- Store for the C7 witness: one event joined by "u7", one media by "u7",
and no user profiles at all. -/
def dbC7 : DB :=
  { emptyDB with
    event := [{ _id := "0123456789abcdef01234567", code := "ZZZZZZ", title := "t"
                date_iso := none, location := none, access := "public", cover_url := none
                participants := ["u7"], challenges := [], ended := false, created_at := none }]
    media := [{ _id := "76543210fedcba9876543210", event_id := "0123456789abcdef01234567"
                user_id := "u7", url := "x", media_type := "photo", challenge := none
                likes_count := 0, comments_count := 0, created_at := none }] }

/-- C7 witness. -/
theorem get_user_default_no_write_witness :
    ((get_user dbC7 "u7").2 = dbC7) ∧
    (get_user dbC7 "u7").1.username = some "Guest" ∧
    (get_user dbC7 "u7").1.avatar_url = none ∧
    (get_user dbC7 "u7").1.following_events = some [] ∧
    (∀ e, e ∈ (get_user dbC7 "u7").1.joined_events ↔ e ∈ dbC7.event ∧ e.participants.contains "u7" = true) ∧
    (get_user dbC7 "u7").1.uploads_count = dbC7.media.countP (fun m => m.user_id == "u7") ∧
    get_user ((get_user dbC7 "u7").2) "u7" = get_user dbC7 "u7" :=
  get_user_default_no_write dbC7 "u7" (by decide)

/-- C8: with the store unconfigured (`db is None`), create-event and
upload-media fail with the store-unavailability error — HTTP 500,
"Database not configured" — the error taxonomy's third class, with a status
distinct from InvalidArgument (400) and NotFound (404). -/
theorem store_unavailable_error (rand : Nat → Nat) (p : CreateEventPayload) (q : UploadMediaPayload) :
    create_event_api rand p none = Except.error ⟨500, "Database not configured"⟩ ∧
    upload_media_api q none = Except.error ⟨500, "Database not configured"⟩ ∧
    (500 : Nat) ≠ 400 ∧ (500 : Nat) ≠ 404 :=
  ⟨rfl, rfl, by decide, by decide⟩

/-- C10: a well-formed event id with an unrecognised sort value is not an
error: the route succeeds and returns the media for that event in stored
order, with no sort applied. -/
theorem list_media_unknown_sort (db : DB) (eid sort : String)
    (hv : isValidObjectId eid = true)
    (h1 : sort ≠ "time") (h2 : sort ≠ "participant") (h3 : sort ≠ "challenge") :
    list_media_for_event db eid sort = Except.ok (db.media.filter (fun m => m.event_id == eid)) := by
  unfold list_media_for_event
  rw [if_pos hv]
  simp only [beq_eq_false_iff_ne.mpr h1, beq_eq_false_iff_ne.mpr h2,
    beq_eq_false_iff_ne.mpr h3, Bool.false_eq_true, if_false]

/-- C10 witness. -/
theorem list_media_unknown_sort_witness :
    list_media_for_event dbC5 "abcdefabcdefabcdefabcdef" "newest" =
      Except.ok (dbC5.media.filter (fun m => m.event_id == "abcdefabcdefabcdefabcdef")) :=
  list_media_unknown_sort dbC5 "abcdefabcdefabcdefabcdef" "newest"
    (by decide) (by decide) (by decide) (by decide)

theorem find?_id_two_lists (l₁ l₂ : List MediaDoc) (a b : MediaDoc) (i : String)
    (hid : b._id = a._id) (m m' : MediaDoc)
    (hm : (l₁ ++ a :: l₂).find? (fun x => x._id == i) = some m)
    (hm' : (l₁ ++ b :: l₂).find? (fun x => x._id == i) = some m') :
    m' = m ∨ (m = a ∧ m' = b) := by
  rcases find?_two_lists (fun x => x._id == i) l₁ l₂ a b (by simp [hid]) with
    ⟨hn, _⟩ | ⟨x, x', hx, hx', hd⟩
  · rw [hn] at hm
    cases hm
  · rw [hx] at hm
    injection hm with hm
    rw [hx'] at hm'
    injection hm' with hm'
    subst hm
    subst hm'
    exact hd

theorem join_event_frame (db : DB) (p : JoinEventPayload) (e : EventDoc) (db' : DB)
    (h : join_event db p = Except.ok (e, db')) :
    db'.media = db.media ∧ db'.comment = db.comment := by
  unfold join_event at h
  cases hf : findEventByCode db.event p.code with
  | none =>
    rw [hf] at h
    exact absurd h (by simp)
  | some ev =>
    simp only [hf] at h
    split at h
    · injection h with h
      injection h with h1 h2
      subst h2
      rw [upsertGuestProfile_media, upsertGuestProfile_comment]
      exact ⟨rfl, rfl⟩
    · exact absurd h (by simp)

theorem toggle_like_frame (db : DB) (mid u : String) (r : MediaDoc) (db' : DB)
    (h : toggle_like db mid u = Except.ok (r, db')) :
    db'.comment = db.comment ∧
    ∃ media c, db.media.find? (fun x => x._id == lowerStr mid) = some media ∧
      db'.media = updateFirst (fun x => x._id == media._id)
        (fun x => { x with likes_count := c }) db.media := by
  unfold toggle_like at h
  by_cases hv : isValidObjectId mid = true
  · rw [if_pos hv] at h
    split at h
    · exact absurd h (by simp)
    · next media hfound =>
      simp only [] at h
      split at h
      · next updated hre =>
        injection h with h
        injection h with h1 h2
        subst h2
        cases hcase : db.like.find? (fun l => l.media_id == mid && l.user_id == u) with
        | some l0 =>
          exact ⟨by simp only [hcase], media, max 0 (media.likes_count + -1), hfound,
            by simp only [hcase]⟩
        | none =>
          exact ⟨by simp only [hcase], media, max 0 (media.likes_count + 1), hfound,
            by simp only [hcase]⟩
      · exact absurd h (by simp)
  · rw [if_neg hv] at h
    exact absurd h (by simp)

theorem upload_media_frame (db : DB) (p : UploadMediaPayload) (r : MediaDoc) (db' : DB)
    (h : upload_media db p = Except.ok (r, db')) :
    db'.media = db.media ++ [r] ∧ db'.comment = db.comment := by
  unfold upload_media at h
  by_cases hv : isValidObjectId p.event_id = true
  · rw [if_pos hv] at h
    split at h
    · exact absurd h (by simp)
    · next ev hev =>
      injection h with h
      injection h with h1 h2
      subst h2
      subst h1
      exact ⟨rfl, rfl⟩
  · rw [if_neg hv] at h
    exact absurd h (by simp)

theorem add_comment_frame (db : DB) (mid : String) (p : AddCommentPayload) (r : Bool) (db' : DB)
    (h : add_comment db mid p = Except.ok (r, db')) :
    (∀ c ∈ db.comment, c ∈ db'.comment) ∧
    ∃ media, db.media.find? (fun x => x._id == lowerStr mid) = some media ∧
      db'.media = updateFirst (fun x => x._id == media._id)
        (fun x => { x with comments_count := media.comments_count + 1 }) db.media := by
  unfold add_comment at h
  by_cases hv : isValidObjectId mid = true
  · rw [if_pos hv] at h
    split at h
    · exact absurd h (by simp)
    · next media hfound =>
      simp only [] at h
      injection h with h
      injection h with h1 h2
      subst h2
      exact ⟨fun c hc => List.mem_append_left _ hc, media, hfound, rfl⟩
  · rw [if_neg hv] at h
    exact absurd h (by simp)

theorem update_user_frame (db : DB) (u : String) (p : UpdateUserPayload) (r : UpdateUserOut) (db' : DB)
    (h : update_user db u p = Except.ok (r, db')) :
    db'.media = db.media ∧ db'.comment = db.comment := by
  unfold update_user at h
  by_cases hempty : (p.username.isNone && p.avatar_url.isNone && p.bio.isNone) = true
  · rw [if_pos hempty] at h
    injection h with h
    injection h with h1 h2
    subst h2
    exact ⟨rfl, rfl⟩
  · rw [if_neg hempty] at h
    simp only [] at h
    split at h
    all_goals try split at h
    all_goals try (simp only [Except.ok.injEq, Prod.mk.injEq] at h
                   obtain ⟨h1, h2⟩ := h
                   subst h2
                   exact ⟨rfl, rfl⟩)
    all_goals exact absurd h (by simp)

theorem monotone_of_run_eq (op : Op) (db : DB) (h : Op.run op db = db) :
    (∀ c ∈ db.comment, c ∈ (Op.run op db).comment) ∧
    (∀ i m m', db.media.find? (fun x => x._id == i) = some m →
      (Op.run op db).media.find? (fun x => x._id == i) = some m' →
      m.comments_count ≤ m'.comments_count ∧
      m'.comments_count ≤ m.comments_count + 1 ∧
      ((∀ mid q, op ≠ Op.addComment mid q) → m'.comments_count = m.comments_count)) := by
  rw [h]
  refine ⟨fun c hc => hc, ?_⟩
  intro i m m' hm hm'
  rw [hm] at hm'
  injection hm' with hh
  subst hh
  exact ⟨le_refl _, by omega, fun _ => rfl⟩

theorem monotone_of_frames (op : Op) (db db' : DB) (hrun : Op.run op db = db')
    (hmed : db'.media = db.media) (hcom : db'.comment = db.comment) :
    (∀ c ∈ db.comment, c ∈ (Op.run op db).comment) ∧
    (∀ i m m', db.media.find? (fun x => x._id == i) = some m →
      (Op.run op db).media.find? (fun x => x._id == i) = some m' →
      m.comments_count ≤ m'.comments_count ∧
      m'.comments_count ≤ m.comments_count + 1 ∧
      ((∀ mid q, op ≠ Op.addComment mid q) → m'.comments_count = m.comments_count)) := by
  rw [hrun]
  constructor
  · intro c hc
    rw [hcom]
    exact hc
  · intro i m m' hm hm'
    rw [hmed, hm] at hm'
    injection hm' with hh
    subst hh
    exact ⟨le_refl _, by omega, fun _ => rfl⟩

/-- C9: across every API operation the `comments_count` of a media document
never decreases, it grows by at most one per call, only add-comment changes
it, and no stored comment is ever deleted. -/
theorem comments_count_monotone (op : Op) (db : DB) :
    (∀ c ∈ db.comment, c ∈ (Op.run op db).comment) ∧
    (∀ i m m', db.media.find? (fun x => x._id == i) = some m →
      (Op.run op db).media.find? (fun x => x._id == i) = some m' →
      m.comments_count ≤ m'.comments_count ∧
      m'.comments_count ≤ m.comments_count + 1 ∧
      ((∀ mid q, op ≠ Op.addComment mid q) → m'.comments_count = m.comments_count)) := by
  cases op with
  | createEvent rand p =>
    exact monotone_of_frames _ db _ rfl rfl rfl
  | exploreEvents limit =>
    exact monotone_of_run_eq _ db rfl
  | joinEvent p =>
    cases hj : join_event db p with
    | error e =>
      exact monotone_of_run_eq _ db (by simp only [Op.run, hj])
    | ok r =>
      obtain ⟨e, db'⟩ := r
      obtain ⟨hmed, hcom⟩ := join_event_frame db p e db' hj
      exact monotone_of_frames _ db db' (by simp only [Op.run, hj]) hmed hcom
  | getEventByCode code =>
    exact monotone_of_run_eq _ db rfl
  | getEvent eid =>
    exact monotone_of_run_eq _ db rfl
  | uploadMedia p =>
    cases hu : upload_media db p with
    | error e =>
      exact monotone_of_run_eq _ db (by simp only [Op.run, hu])
    | ok r =>
      obtain ⟨doc, db'⟩ := r
      obtain ⟨hmed, hcom⟩ := upload_media_frame db p doc db' hu
      have hrun : Op.run (Op.uploadMedia p) db = db' := by simp only [Op.run, hu]
      rw [hrun]
      constructor
      · intro c hc
        rw [hcom]
        exact hc
      · intro i m m' hm hm'
        rw [hmed, List.find?_append, hm] at hm'
        have hm'' : some m = some m' := hm'
        injection hm'' with hh
        subst hh
        exact ⟨le_refl _, by omega, fun _ => rfl⟩
  | listMediaForEvent eid sort =>
    exact monotone_of_run_eq _ db rfl
  | toggleLike mid u =>
    cases ht : toggle_like db mid u with
    | error e =>
      exact monotone_of_run_eq _ db (by simp only [Op.run, ht])
    | ok r =>
      obtain ⟨doc, db'⟩ := r
      obtain ⟨hcom, media, c, hfound, hmed⟩ := toggle_like_frame db mid u doc db' ht
      have hrun : Op.run (Op.toggleLike mid u) db = db' := by simp only [Op.run, ht]
      rw [hrun]
      constructor
      · intro cc hcc
        rw [hcom]
        exact hcc
      · intro i m m' hm hm'
        obtain ⟨l₁, l₂, hsplit, hfalse⟩ := find?_split hfound
        have hPmedia : (media._id == lowerStr mid) = true := by
          have hx := List.find?_some hfound
          simpa using hx
        have hQP : ∀ x : MediaDoc, (x._id == media._id) = (x._id == lowerStr mid) := by
          intro x
          rw [beq_iff_eq.mp hPmedia]
        have hupd : db'.media = l₁ ++ ({ media with likes_count := c } : MediaDoc) :: l₂ := by
          rw [hmed, updateFirst_congr _ hQP, hsplit]
          exact updateFirst_append_false_cons _ _ _ _ _ hfalse hPmedia
        rw [hsplit] at hm
        rw [hupd] at hm'
        rcases find?_id_two_lists l₁ l₂ media ({ media with likes_count := c }) i rfl m m' hm hm' with
          hd | ⟨hd1, hd2⟩
        · subst hd
          exact ⟨le_refl _, by omega, fun _ => rfl⟩
        · subst hd1
          subst hd2
          have hcc : ({ m with likes_count := c } : MediaDoc).comments_count =
              m.comments_count := rfl
          exact ⟨le_of_eq hcc.symm, by omega, fun _ => hcc⟩
  | listComments mid =>
    exact monotone_of_run_eq _ db rfl
  | addComment mid q =>
    cases ha : add_comment db mid q with
    | error e =>
      exact monotone_of_run_eq _ db (by simp only [Op.run, ha])
    | ok r =>
      obtain ⟨ack, db'⟩ := r
      obtain ⟨hcom, media, hfound, hmed⟩ := add_comment_frame db mid q ack db' ha
      have hrun : Op.run (Op.addComment mid q) db = db' := by simp only [Op.run, ha]
      rw [hrun]
      constructor
      · intro cc hcc
        exact hcom cc hcc
      · intro i m m' hm hm'
        obtain ⟨l₁, l₂, hsplit, hfalse⟩ := find?_split hfound
        have hPmedia : (media._id == lowerStr mid) = true := by
          have hx := List.find?_some hfound
          simpa using hx
        have hQP : ∀ x : MediaDoc, (x._id == media._id) = (x._id == lowerStr mid) := by
          intro x
          rw [beq_iff_eq.mp hPmedia]
        have hupd : db'.media =
            l₁ ++ ({ media with comments_count := media.comments_count + 1 } : MediaDoc) :: l₂ := by
          rw [hmed, updateFirst_congr _ hQP, hsplit]
          exact updateFirst_append_false_cons _ _ _ _ _ hfalse hPmedia
        rw [hsplit] at hm
        rw [hupd] at hm'
        rcases find?_id_two_lists l₁ l₂ media
            ({ media with comments_count := media.comments_count + 1 }) i rfl m m' hm hm' with
          hd | ⟨hd1, hd2⟩
        · subst hd
          exact ⟨le_refl _, by omega, fun _ => rfl⟩
        · subst hd1
          subst hd2
          have hcc : ({ m with comments_count := m.comments_count + 1 } : MediaDoc).comments_count =
              m.comments_count + 1 := rfl
          refine ⟨by omega, by omega, ?_⟩
          intro hne
          exact absurd rfl (hne mid q)
  | getUser u =>
    exact monotone_of_run_eq _ db rfl
  | updateUser u p =>
    cases hup : update_user db u p with
    | error e =>
      exact monotone_of_run_eq _ db (by simp only [Op.run, hup])
    | ok r =>
      obtain ⟨out, db'⟩ := r
      obtain ⟨hmed, hcom⟩ := update_user_frame db u p out db' hup
      exact monotone_of_frames _ db db' (by simp only [Op.run, hup]) hmed hcom

/-- Media id used by the C9 witness store. -/
def midC9 : String := "1234567890abcdef12345678"

/-- Media document with one comment. -/
def mC9 : MediaDoc :=
  { _id := midC9, event_id := "e", user_id := "u", url := "x", media_type := "photo"
    challenge := none, likes_count := 0, comments_count := 1, created_at := none }

/-- Store holding only `mC9`. -/
def dbC9 : DB := { emptyDB with media := [mC9] }

/-- The same media after one add-comment. -/
def mC9' : MediaDoc := { mC9 with comments_count := 2 }

/-- C9 witness. -/
theorem comments_count_monotone_witness :
    mC9.comments_count ≤ mC9'.comments_count ∧ mC9'.comments_count ≤ mC9.comments_count + 1 := by
  have h := (comments_count_monotone (Op.addComment midC9 { user_id := "u", text := "t" }) dbC9).2
    midC9 mC9 mC9' (by decide) (by decide)
  exact ⟨h.1, h.2.1⟩
